import Mathlib

/-!
Verification of the `toml_rs` Python binding layer (`src/python/toml_rs/__init__.py`).

The document is modelled as a `List Char` (a Python `str` is a sequence of code
points).  The Python string methods used by the code — `str.count("\n", 0, pos)`
and `str.rindex("\n", 0, pos)` — are embedded as `countNl` and `rindexNl` below.
The compiled extension module `_toml_rs` (the Rust core exposing `_loads`) is not
part of the visible sources; following §6 of the spec, the core decoder is kept
abstract: the wrappers `load` and `loads` are parameterised over it.
-/

namespace TomlRs

/-- Embedding of `doc.count("\n", 0, pos)`: the number of newline characters
among the first `pos` characters of `doc` (the slice clamps at the end of the
document, exactly as Python slicing does). -/
def countNl (doc : List Char) (pos : Nat) : Nat :=
  (doc.take pos).count '\n'

/-- Embedding of Python `doc.rindex("\n", 0, pos)`, searching backwards:
`rindexFrom doc n` is the greatest index `i < n` with `doc[i] = '\n'`, or
`none` when there is no newline among the first `n` characters. -/
def rindexFrom (doc : List Char) : Nat → Option Nat
  | 0 => none
  | n + 1 => if doc[n]? = some '\n' then some n else rindexFrom doc n

/-- Embedding of `doc.rindex("\n", 0, pos)`: the index of the last `'\n'`
strictly before position `pos` (Python clamps the slice end at `len(doc)`).
Python raises `ValueError` when no newline exists; the caller in
`TOMLDecodeError.__init__` only reaches `rindex` when a newline is present,
so the `none` case is unreachable there. -/
def rindexNl (doc : List Char) (pos : Nat) : Option Nat :=
  rindexFrom doc (min pos doc.length)

/-- The attributes stored on a constructed `TOMLDecodeError` object, plus the
formatted message handed to `ValueError.__init__`. -/
structure TOMLDecodeError where
  errmsg : String
  msg : String
  doc : List Char
  pos : Nat
  lineno : Nat
  colno : Nat
deriving Repr, DecidableEq

/-- Embedding of `TOMLDecodeError.__init__(msg, doc, pos)`:

    lineno = doc.count("\n", 0, pos) + 1
    colno  = pos + 1                            if lineno == 1
           = pos - doc.rindex("\n", 0, pos)     otherwise
    coord_repr = "end of document"              if pos >= len(doc)
               = f"line {lineno}, column {colno}" otherwise
    errmsg = f"{msg} (at {coord_repr})"

In the `rindex` branch a newline is guaranteed to exist (lineno ≠ 1), so the
`Option.getD 0` default is never consulted. -/
def TOMLDecodeError.init (msg : String) (doc : List Char) (pos : Nat) :
    TOMLDecodeError :=
  let lineno : Nat := countNl doc pos + 1
  let colno : Nat :=
    if lineno = 1 then pos + 1 else pos - (rindexNl doc pos).getD 0
  let coord_repr : String :=
    if doc.length ≤ pos then "end of document"
    else "line " ++ (toString lineno ++ (", column " ++ toString colno))
  let errmsg : String := msg ++ (" (at " ++ (coord_repr ++ ")"))
  ⟨errmsg, msg, doc, pos, lineno, colno⟩

/-- A small universe of Python runtime objects, enough to model the dynamic
`isinstance` and attribute checks performed by the binding layer (`str`,
`bytes`, and a few representative non-`str`, non-`bytes` objects). -/
inductive PyObj where
  | pyStr (s : List Char)
  | pyBytes (b : List Nat)
  | pyInt (n : Int)
  | pyBool (b : Bool)
  | pyNone
deriving Repr, DecidableEq

/-- Python `type(o).__name__` on this universe. -/
def PyObj.typeName : PyObj → String
  | .pyStr _ => "str"
  | .pyBytes _ => "bytes"
  | .pyInt _ => "int"
  | .pyBool _ => "bool"
  | .pyNone => "NoneType"

/-- Python `isinstance(o, str)` on this universe. -/
def PyObj.isStr : PyObj → Bool
  | .pyStr _ => true
  | _ => false

/-- Whether the object has a `decode` attribute (in this universe only `bytes`
does; `str`, `int`, `bool` and `None` all raise `AttributeError` on
`.decode`). -/
def PyObj.hasDecode : PyObj → Bool
  | .pyBytes _ => true
  | _ => false

/-- A byte in the range `0x80 ≤ b < 0xC0`, i.e. a UTF-8 continuation byte. -/
def isContinuation (b : Nat) : Bool :=
  decide (0x80 ≤ b) && decide (b < 0xC0)

/-- Embedding of Python `bytes.decode("utf-8")` (the strict codec used by
`load`): standard UTF-8 with rejection of overlong forms, surrogates, lead
bytes `0xC0`/`0xC1`/`0xF5`–`0xFF`, truncated sequences and stray continuation
bytes.  Returns `none` where Python raises `UnicodeDecodeError`. -/
def utf8Decode : List Nat → Option (List Char)
  | [] => some []
  | b :: bs =>
    if b < 0x80 then
      (utf8Decode bs).map (fun r => Char.ofNat b :: r)
    else if b < 0xC2 then
      none
    else if b < 0xE0 then
      match bs with
      | b1 :: bs1 =>
        if isContinuation b1 then
          (utf8Decode bs1).map (fun r => Char.ofNat ((b % 32) * 64 + b1 % 64) :: r)
        else none
      | _ => none
    else if b < 0xF0 then
      match bs with
      | b1 :: b2 :: bs2 =>
        if isContinuation b1 && isContinuation b2
            && (decide (b ≠ 0xE0) || decide (0xA0 ≤ b1))
            && (decide (b ≠ 0xED) || decide (b1 < 0xA0)) then
          (utf8Decode bs2).map
            (fun r => Char.ofNat ((b % 16) * 4096 + (b1 % 64) * 64 + b2 % 64) :: r)
        else none
      | _ => none
    else if b ≤ 0xF4 then
      match bs with
      | b1 :: b2 :: b3 :: bs3 =>
        if isContinuation b1 && isContinuation b2 && isContinuation b3
            && (decide (b ≠ 0xF0) || decide (0x90 ≤ b1))
            && (decide (b ≠ 0xF4) || decide (b1 < 0x90)) then
          (utf8Decode bs3).map
            (fun r => Char.ofNat
              ((b % 8) * 262144 + (b1 % 64) * 4096 + (b2 % 64) * 64 + b3 % 64) :: r)
        else none
      | _ => none
    else none

/-- The host-level failures the binding layer can raise besides a decode
error: `TypeError` (bad argument type) and `UnicodeDecodeError` (invalid
UTF-8 from `bytes.decode`). -/
inductive PyError where
  | typeError (msg : String)
  | unicodeDecodeError
deriving Repr, DecidableEq

/-- Embedding of `load(fp, /, *, parse_float=...)`.  `fpRead` is the object
returned by `fp.read()`.  Modelled from the spec: the core decoder `_loads`
lives in the compiled `_toml_rs` extension, absent from the visible sources;
per §6 it is `decode_text(text, float_ctor)`, the sole text-in entry point,
kept abstract here as the function argument `coreLoads` applied to the decoded
text and the float hook.  `b.decode("utf-8")` is embedded as `utf8Decode`; an
object without a `decode` attribute raises `AttributeError`, which the code
converts to the binary-mode `TypeError`, and invalid UTF-8 propagates as
`UnicodeDecodeError`. -/
def load {α φ : Type} (coreLoads : List Char → φ → α) (fpRead : PyObj)
    (parse_float : φ) : Except PyError α :=
  match fpRead with
  | .pyBytes b =>
    match utf8Decode b with
    | some s => .ok (coreLoads s parse_float)
    | none => .error .unicodeDecodeError
  | _ => .error (.typeError
      "File must be opened in binary mode, e.g. use `open('foo.toml', 'rb')`")

/-- Embedding of `loads(s, /, *, parse_float=...)`; `coreLoads` abstracts the
`_toml_rs._loads` core exactly as in `load`. -/
def loads {α φ : Type} (coreLoads : List Char → φ → α) (s : PyObj)
    (parse_float : φ) : Except PyError α :=
  match s with
  | .pyStr str => .ok (coreLoads str parse_float)
  | o => .error (.typeError ("Expected str object, not '" ++ o.typeName ++ "'"))

theorem TOMLDecodeError.lineno_init (msg : String) (doc : List Char) (pos : Nat) :
    (TOMLDecodeError.init msg doc pos).lineno = countNl doc pos + 1 := rfl

theorem TOMLDecodeError.colno_init (msg : String) (doc : List Char) (pos : Nat) :
    (TOMLDecodeError.init msg doc pos).colno =
      if countNl doc pos + 1 = 1 then pos + 1
      else pos - (rindexNl doc pos).getD 0 := rfl

theorem TOMLDecodeError.errmsg_init (msg : String) (doc : List Char) (pos : Nat) :
    (TOMLDecodeError.init msg doc pos).errmsg =
      msg ++ (" (at " ++
        ((if doc.length ≤ pos then "end of document"
          else "line " ++ (toString (countNl doc pos + 1) ++
            (", column " ++ toString (TOMLDecodeError.init msg doc pos).colno)))
         ++ ")")) := rfl

/-! ### Characterizations of the newline-count and last-newline search -/

/-- The Python `doc.count("\n", 0, pos)` equals the number of positions `i < pos`
holding a newline. -/
theorem countNl_eq_card (doc : List Char) (pos : Nat) :
    countNl doc pos =
      ((Finset.range pos).filter (fun i => doc[i]? = some '\n')).card := by
  induction pos with
  | zero => simp [countNl]
  | succ n ih =>
    rw [countNl, List.take_succ, List.count_append, Finset.range_succ,
      Finset.filter_insert]
    by_cases h : doc[n]? = some '\n'
    · rw [if_pos h, Finset.card_insert_of_not_mem (by simp), ← ih, h]
      rfl
    · rw [if_neg h, ← ih]
      cases hg : doc[n]? with
      | none => simp [hg, countNl]
      | some c =>
        have hc : c ≠ '\n' := fun hc => h (by rw [hg, hc])
        simp [hg, List.count_singleton, hc, countNl]

/-- `countNl doc pos = 0` exactly when no position before `pos` holds a newline. -/
theorem countNl_eq_zero_iff (doc : List Char) (pos : Nat) :
    countNl doc pos = 0 ↔ ∀ i, i < pos → doc[i]? ≠ some '\n' := by
  rw [countNl, List.count_eq_zero]
  constructor
  · intro hmem i hi hnl
    exact hmem (List.mem_iff_getElem?.mpr ⟨i, by rw [List.getElem?_take_of_lt hi, hnl]⟩)
  · intro h hmem
    obtain ⟨i, hget⟩ := List.mem_iff_getElem?.mp hmem
    have hilen : i < (doc.take pos).length := by
      obtain ⟨hlt, -⟩ := List.getElem?_eq_some_iff.mp hget
      exact hlt
    have hipos : i < pos := lt_of_lt_of_le hilen (by rw [List.length_take]; omega)
    rw [List.getElem?_take_of_lt hipos] at hget
    exact h i hipos hget

/-- `rindexFrom` finds the unique "last newline before `n`" position. -/
theorem rindexFrom_eq_some (doc : List Char) :
    ∀ {n i : Nat}, i < n → doc[i]? = some '\n' →
      (∀ j, i < j → j < n → doc[j]? ≠ some '\n') → rindexFrom doc n = some i := by
  intro n
  induction n with
  | zero => intro i hi _ _; exact absurd hi (Nat.not_lt_zero i)
  | succ m ih =>
    intro i hi hnl hlast
    rw [rindexFrom]
    by_cases h : doc[m]? = some '\n'
    · rw [if_pos h]
      have him : i = m := by
        by_contra hne
        exact hlast m (by omega) (Nat.lt_succ_self m) h
      rw [him]
    · rw [if_neg h]
      have him : i < m := by
        rcases Nat.lt_succ_iff_lt_or_eq.mp hi with h' | h'
        · exact h'
        · exact absurd (h' ▸ hnl) h
      exact ih him hnl (fun j hji hjm => hlast j hji (Nat.lt_succ_of_lt hjm))

/-- If no position before `pos` holds a newline, the stored column is `pos + 1`
(first-line case of the derivation). -/
theorem colno_of_no_newline (msg : String) (doc : List Char) (pos : Nat)
    (h : ∀ i, i < pos → doc[i]? ≠ some '\n') :
    (TOMLDecodeError.init msg doc pos).colno = pos + 1 := by
  have h0 : countNl doc pos = 0 := (countNl_eq_zero_iff doc pos).mpr h
  rw [TOMLDecodeError.colno_init, h0, if_pos rfl]

/-- If `i` is the last newline position before `pos`, the stored column is
`pos - i` (later-line case of the derivation). -/
theorem colno_of_last_newline (msg : String) (doc : List Char) (pos i : Nat)
    (hi : i < pos) (hnl : doc[i]? = some '\n')
    (hlast : ∀ j, i < j → j < pos → doc[j]? ≠ some '\n') :
    (TOMLDecodeError.init msg doc pos).colno = pos - i := by
  have hne : countNl doc pos ≠ 0 :=
    fun h0 => (countNl_eq_zero_iff doc pos).mp h0 i hi hnl
  obtain ⟨hlen, -⟩ := List.getElem?_eq_some_iff.mp hnl
  have hr : rindexFrom doc (min pos doc.length) = some i :=
    rindexFrom_eq_some doc (lt_min hi hlen) hnl
      (fun j hji hj => hlast j hji (lt_of_lt_of_le hj (min_le_left _ _)))
  rw [TOMLDecodeError.colno_init, if_neg (by omega), rindexNl, hr]
  rfl

/-- The stored line number is one more than the number of newline positions
before `pos`. -/
theorem lineno_card_spec (msg : String) (doc : List Char) (pos : Nat) :
    (TOMLDecodeError.init msg doc pos).lineno =
      ((Finset.range pos).filter (fun i => doc[i]? = some '\n')).card + 1 := by
  rw [TOMLDecodeError.lineno_init, countNl_eq_card]

/-! ### Claims -/

/-- C1: for every document `doc`, message `msg` and offset `pos` with
`0 ≤ pos ≤ len doc`, `TOMLDecodeError(msg, doc, pos)` sets `lineno` to the
number of newline characters occurring in `doc` before index `pos`, plus 1. -/
theorem C1_lineno_counts_newlines (msg : String) (doc : List Char) (pos : Nat)
    (hpos : pos ≤ doc.length) :
    (TOMLDecodeError.init msg doc pos).lineno =
      ((Finset.range pos).filter (fun i => doc[i]? = some '\n')).card + 1 :=
  lineno_card_spec msg doc pos

theorem C1_witness :
    (6 : Nat) ≤ ("a = 1\nb = \n".data).length ∧
    (TOMLDecodeError.init "m" ("a = 1\nb = \n".data) 6).lineno =
      ((Finset.range 6).filter
        (fun i => ("a = 1\nb = \n".data)[i]? = some '\n')).card + 1 :=
  ⟨by decide, C1_lineno_counts_newlines "m" ("a = 1\nb = \n".data) 6 (by decide)⟩

/-- C2: for every document `doc`, message `msg` and offset `pos` with
`0 ≤ pos ≤ len doc`, the constructed error's `colno` is `pos + 1` when no
newline occurs in `doc` before index `pos`, and otherwise `pos` minus the
index of the last newline in `doc` before index `pos`. -/
theorem C2_colno_formula (msg : String) (doc : List Char) (pos : Nat)
    (hpos : pos ≤ doc.length) :
    ((∀ i, i < pos → doc[i]? ≠ some '\n') →
        (TOMLDecodeError.init msg doc pos).colno = pos + 1) ∧
    (∀ i, i < pos → doc[i]? = some '\n' →
        (∀ j, i < j → j < pos → doc[j]? ≠ some '\n') →
        (TOMLDecodeError.init msg doc pos).colno = pos - i) :=
  ⟨colno_of_no_newline msg doc pos,
   fun i hi hnl hlast => colno_of_last_newline msg doc pos i hi hnl hlast⟩

theorem C2_witness :
    (3 : Nat) ≤ ("a\nb".data).length ∧
    (TOMLDecodeError.init "m" ("a\nb".data) 3).colno = 3 - 1 := by
  refine ⟨by decide,
    (C2_colno_formula "m" ("a\nb".data) 3 (by decide)).2 1 (by decide) (by decide) ?_⟩
  intro j h1 h2
  have hj : j = 2 := by omega
  subst hj
  decide

/-- C3: the constructed error surfaces the three decode-error fields
unchanged: `msg`, `doc` and `pos` equal the constructor arguments. -/
theorem C3_fields_preserved (msg : String) (doc : List Char) (pos : Nat) :
    (TOMLDecodeError.init msg doc pos).msg = msg ∧
    (TOMLDecodeError.init msg doc pos).doc = doc ∧
    (TOMLDecodeError.init msg doc pos).pos = pos :=
  ⟨rfl, rfl, rfl⟩

/-- C4, counterexample: the claim quantifies over every offset, but at an
offset at or past the end of the document (here `doc = ""`, `pos = 0`) the
formatted message ends in `" (at end of document)"`, not in the
`" (at line X, column Y)"` coordinate suffix. -/
theorem C4_counterexample :
    ¬ ((TOMLDecodeError.init "x" [] 0).errmsg =
        "x" ++ " (at line " ++ toString (TOMLDecodeError.init "x" [] 0).lineno ++
          ", column " ++ toString (TOMLDecodeError.init "x" [] 0).colno ++ ")") := by
  decide

/-- C4, amended: for every `msg`, `doc` and offset `pos` strictly inside the
document (`pos < len doc`), the formatted string passed to `ValueError`
equals the raw `msg` with `" (at line X, column Y)"` appended, where `X` is
the derived `lineno` and `Y` the derived `colno`. -/
theorem C4_amended_coordinate_suffix (msg : String) (doc : List Char) (pos : Nat)
    (h : pos < doc.length) :
    (TOMLDecodeError.init msg doc pos).errmsg =
      msg ++ " (at line " ++ toString (TOMLDecodeError.init msg doc pos).lineno ++
        ", column " ++ toString (TOMLDecodeError.init msg doc pos).colno ++ ")" := by
  have hmerge : ∀ s : String, s ++ " (at " ++ "line " = s ++ " (at line " :=
    fun s => by rw [String.append_assoc]; rfl
  rw [TOMLDecodeError.errmsg_init, if_neg (by omega), TOMLDecodeError.lineno_init]
  simp only [← String.append_assoc]
  rw [hmerge msg]

theorem C4_witness :
    (0 : Nat) < ("a".data).length ∧
    (TOMLDecodeError.init "bad" ("a".data) 0).errmsg =
      "bad" ++ " (at line " ++ toString (TOMLDecodeError.init "bad" ("a".data) 0).lineno ++
        ", column " ++ toString (TOMLDecodeError.init "bad" ("a".data) 0).colno ++ ")" :=
  ⟨by decide, C4_amended_coordinate_suffix "bad" ("a".data) 0 (by decide)⟩

/-- C5: `load(fp, parse_float=f)` returns exactly the core decode
`_loads(s, parse_float=f)` where `s` is the UTF-8 decoding of the bytes read
from the file, for every core decoder, byte string and hook — the wrapper
decodes UTF-8 itself and applies no other transformation to input or
output. -/
theorem C5_load_refines_core {α φ : Type} (coreLoads : List Char → φ → α)
    (b : List Nat) (s : List Char) (parse_float : φ)
    (h : utf8Decode b = some s) :
    load coreLoads (.pyBytes b) parse_float = .ok (coreLoads s parse_float) := by
  simp [load, h]

theorem C5_witness :
    utf8Decode [116, 32, 61, 32, 49] = some ("t = 1".data) ∧
    load (fun (s : List Char) (_ : Unit) => s) (.pyBytes [116, 32, 61, 32, 49]) () =
      .ok ("t = 1".data) :=
  ⟨by decide,
   C5_load_refines_core (fun (s : List Char) (_ : Unit) => s)
     [116, 32, 61, 32, 49] ("t = 1".data) () (by decide)⟩

/-- C6: for the document `"a = 1\nb = \n"` every error constructed with an
offset on the second line (`6 ≤ pos ≤ 10`) has `lineno = 2`. -/
theorem C6_lineno_second_line (msg : String) (pos : Nat)
    (h1 : 6 ≤ pos) (h2 : pos ≤ 10) :
    (TOMLDecodeError.init msg ("a = 1\nb = \n".data) pos).lineno = 2 := by
  rw [TOMLDecodeError.lineno_init]
  interval_cases pos <;> decide

theorem C6_witness :
    (TOMLDecodeError.init "expected value" ("a = 1\nb = \n".data) 10).lineno = 2 :=
  C6_lineno_second_line "expected value" 10 (by decide) (by decide)

/-- C7: the line/column derivation is a pure function of `(document, offset)`:
constructions with equal `doc` and `pos` agree on `lineno` and `colno`
whatever the messages are, and additionally on the formatted message when the
messages agree. -/
theorem C7_derivation_pure (msg₁ msg₂ : String) (doc₁ doc₂ : List Char)
    (pos₁ pos₂ : Nat) (hdoc : doc₁ = doc₂) (hpos : pos₁ = pos₂) :
    (TOMLDecodeError.init msg₁ doc₁ pos₁).lineno =
      (TOMLDecodeError.init msg₂ doc₂ pos₂).lineno ∧
    (TOMLDecodeError.init msg₁ doc₁ pos₁).colno =
      (TOMLDecodeError.init msg₂ doc₂ pos₂).colno ∧
    (msg₁ = msg₂ →
      (TOMLDecodeError.init msg₁ doc₁ pos₁).errmsg =
        (TOMLDecodeError.init msg₂ doc₂ pos₂).errmsg) := by
  subst hdoc
  subst hpos
  exact ⟨rfl, rfl, fun hmsg => by rw [hmsg]⟩

theorem C7_witness :
    (TOMLDecodeError.init "e" ("x\ny".data) 2).lineno =
      (TOMLDecodeError.init "f" ("x\ny".data) 2).lineno :=
  (C7_derivation_pure "e" "f" ("x\ny".data) ("x\ny".data) 2 2 rfl rfl).1

/-- C8: when the offset is at or past the end of the document, the formatted
string is `msg` followed by `" (at end of document)"`, while `lineno` and
`colno` are still computed and stored by the usual formulas (newline count
plus one; first-line / last-newline column rule). -/
theorem C8_end_of_document (msg : String) (doc : List Char) (pos : Nat)
    (h : doc.length ≤ pos) :
    (TOMLDecodeError.init msg doc pos).errmsg = msg ++ " (at end of document)" ∧
    (TOMLDecodeError.init msg doc pos).lineno =
      ((Finset.range pos).filter (fun i => doc[i]? = some '\n')).card + 1 ∧
    ((∀ i, i < pos → doc[i]? ≠ some '\n') →
        (TOMLDecodeError.init msg doc pos).colno = pos + 1) ∧
    (∀ i, i < pos → doc[i]? = some '\n' →
        (∀ j, i < j → j < pos → doc[j]? ≠ some '\n') →
        (TOMLDecodeError.init msg doc pos).colno = pos - i) := by
  refine ⟨?_, lineno_card_spec msg doc pos, colno_of_no_newline msg doc pos,
    fun i hi hnl hlast => colno_of_last_newline msg doc pos i hi hnl hlast⟩
  rw [TOMLDecodeError.errmsg_init, if_pos h]
  rfl

theorem C8_witness :
    ("ab".data).length ≤ 5 ∧
    (TOMLDecodeError.init "m" ("ab".data) 5).errmsg = "m" ++ " (at end of document)" :=
  ⟨by decide, (C8_end_of_document "m" ("ab".data) 5 (by decide)).1⟩

/-- C9: `loads` on a non-`str` argument returns the `TypeError` naming the
actual type of the argument — for every core decoder, so the core is never
consulted. -/
theorem C9_loads_type_error {α φ : Type} (coreLoads : List Char → φ → α)
    (o : PyObj) (parse_float : φ) (h : o.isStr = false) :
    loads coreLoads o parse_float =
      .error (.typeError ("Expected str object, not '" ++ o.typeName ++ "'")) := by
  cases o with
  | pyStr s => simp [PyObj.isStr] at h
  | pyBytes b => rfl
  | pyInt n => rfl
  | pyBool b => rfl
  | pyNone => rfl

theorem C9_witness :
    PyObj.isStr (.pyInt 3) = false ∧
    loads (fun (s : List Char) (_ : Unit) => s) (.pyInt 3) () =
      .error (.typeError "Expected str object, not 'int'") :=
  ⟨rfl, C9_loads_type_error (fun (s : List Char) (_ : Unit) => s) (.pyInt 3) () rfl⟩

/-- C10: `load` on a read result without a `decode` method (e.g. a `str` from
a file opened in text mode) returns the `TypeError` instructing the caller to
open the file in binary mode — for every core decoder, so the core is never
consulted. -/
theorem C10_load_binary_mode_error {α φ : Type} (coreLoads : List Char → φ → α)
    (fpRead : PyObj) (parse_float : φ) (h : fpRead.hasDecode = false) :
    load coreLoads fpRead parse_float =
      .error (.typeError
        "File must be opened in binary mode, e.g. use `open('foo.toml', 'rb')`") := by
  cases fpRead with
  | pyBytes b => simp [PyObj.hasDecode] at h
  | pyStr s => rfl
  | pyInt n => rfl
  | pyBool b => rfl
  | pyNone => rfl

theorem C10_witness :
    PyObj.hasDecode (.pyStr ("a = 1".data)) = false ∧
    load (fun (s : List Char) (_ : Unit) => s) (.pyStr ("a = 1".data)) () =
      .error (.typeError
        "File must be opened in binary mode, e.g. use `open('foo.toml', 'rb')`") :=
  ⟨rfl, C10_load_binary_mode_error (fun (s : List Char) (_ : Unit) => s)
    (.pyStr ("a = 1".data)) () rfl⟩

end TomlRs
